import Mathlib

/-!
# go-lockbox: verified model of the distributed lock library

Shallow embedding of the go-lockbox repository: the `core` package
(validation, retry strategy, backoff computation) and the PostgreSQL
adapter (`pg` package: `Acquire`, `Release`, `Refresh`, `IsHeld`,
`Close`, `HealthCheck`) together with the SQL of the lock table
(`try_acquire_lock`, `releaseLockSQL`, `refreshLockSQL`, `isHeldLockSQL`).

Modelling conventions:
* `time.Duration` values (TTL, delays) are integers counting nanoseconds;
  instants and the TTL argument of the SQL layer are integers counting
  milliseconds, mirroring `opts.TTL.Milliseconds()`.
* Go `float64` fields (`JitterFactor`, `BackoffFactor`) are modelled as
  exact rationals; the conversion `time.Duration(x)` of a float to an
  integer truncates toward zero and is modelled by `floatTrunc`.
* The lock table is a list of rows; the `key` column is its primary key.
* Fallible Go calls return `Option`/`Except`; the Go sentinel errors of
  `core/contract.go` and the pgx transport errors are enumerated in
  `GoError` and `PgError`.
-/

namespace Lockbox

/-- Errors surfaced by the pgx driver / PostgreSQL backend. -/
inductive PgError where
  /-- `pgx.ErrNoRows`: a query returned no row. -/
  | noRows
  /-- the error returned by pool operations after `pool.Close()`. -/
  | closedPool
  /-- `RAISE EXCEPTION 'Invalid key format' USING ERRCODE = '22023'`
      raised by `try_acquire_lock`. -/
  | invalidKeyErrcode
  /-- any other transport/backend error. -/
  | other (msg : String)
  deriving DecidableEq, Repr

/-- The sentinel errors of `core/contract.go` plus the wrapped forms the
`pg` adapter produces.  `adapterClosed` models `core.ErrAdapterClosed`. -/
inductive GoError where
  /-- `core.ErrLockAcquisitionFailed` -/
  | lockAcquisitionFailed
  /-- `core.ErrLockOwnershipMismatch` -/
  | lockOwnershipMismatch
  /-- `fmt.Errorf("%w: %v", core.ErrInvalidTTL, ttl)` -/
  | invalidTTL (ttl : Int)
  /-- `core.ErrAdapterClosed` -/
  | adapterClosed
  /-- `fmt.Errorf("%w: %s", core.ErrInvalidKeyFormat, key)` -/
  | invalidKeyFormat (key : String)
  /-- `core.ErrRefreshTooLate` -/
  | refreshTooLate
  /-- `errors.New(msg)` inside `RetryStrategy.Validate` -/
  | validationMsg (msg : String)
  /-- `fmt.Errorf("failed to acquire lock: %w", err)` in `pg.Acquire` -/
  | failedToAcquire (e : PgError)
  /-- a backend error returned unwrapped to the caller -/
  | pg (e : PgError)
  deriving DecidableEq, Repr

/-! ## core/contract.go : constants, validation, backoff -/

/-- `core.MinLockTTL = 1 * time.Millisecond`, in nanoseconds. -/
def MinLockTTL : Int := 1000000

/-- `core.MaxLockTTL = 10 * time.Minute`, in nanoseconds. -/
def MaxLockTTL : Int := 600000000000

/-- `core.DefaultRequestTimeout = 3 * time.Second`, in nanoseconds. -/
def DefaultRequestTimeout : Int := 3000000000

/-- A character allowed by the key pattern `[a-zA-Z0-9_-]` used both in
`core.ValidateKey` and in the SQL security check of `try_acquire_lock`. -/
def validKeyChar (c : Char) : Bool :=
  c.isAlphanum || c == '_' || c == '-'

/-- The regex `^[a-zA-Z0-9_-]{1,256}$` of `core.ValidateKey`: between 1 and
256 characters, every one of them in the class. -/
def keyPatternOk (key : String) : Bool :=
  decide (1 ≤ key.length) && decide (key.length ≤ 256) && key.data.all validKeyChar

/-- `core.ValidateKey`. -/
def ValidateKey (key : String) : Option GoError :=
  if keyPatternOk key then none else some (.invalidKeyFormat key)

/-- `core.RetryStrategy`.  Delays count nanoseconds; the two float factors
are exact rationals. -/
structure RetryStrategy where
  MaxRetries : Int
  BaseDelay : Int
  MaxDelay : Int
  JitterFactor : ℚ
  BackoffFactor : ℚ
  deriving DecidableEq, Repr

/-- `core.RetryStrategy.Validate`: checks, in order, `MaxRetries ≥ 0`,
`JitterFactor ∈ [0,1]`, `BackoffFactor ≥ 1`.  `BaseDelay` and `MaxDelay`
are not inspected. -/
def RetryStrategy.Validate (r : RetryStrategy) : Option GoError :=
  if r.MaxRetries < 0 then
    some (.validationMsg "max retries must be >= 0")
  else if r.JitterFactor < 0 ∨ r.JitterFactor > 1 then
    some (.validationMsg "jitter factor must be [0.0, 1.0]")
  else if r.BackoffFactor < 1 then
    some (.validationMsg "backoff factor must be >= 1")
  else
    none

/-- `core.LockOptions`.  `Metadata` is kept already serialized: pg.Acquire
marshals the `map[string]string` to JSON and `json.Marshal` cannot fail on
that type. -/
structure LockOptions where
  TTL : Int
  RetryStrategy : RetryStrategy
  Metadata : String
  RequestTimeout : Int
  deriving DecidableEq, Repr

/-- `core.LockOptions.Validate`.  The receiver is mutated in Go when
`RequestTimeout ≤ 0`; the model returns the updated options next to the
error. -/
def LockOptions.Validate (o : LockOptions) : LockOptions × Option GoError :=
  if o.TTL < MinLockTTL ∨ o.TTL > MaxLockTTL then
    (o, some (.invalidTTL o.TTL))
  else
    let o' := if o.RequestTimeout ≤ 0 then { o with RequestTimeout := DefaultRequestTimeout } else o
    (o', o'.RetryStrategy.Validate)

/-- Go's conversion `time.Duration(x)` of a `float64` to an integer:
truncation toward zero. -/
def floatTrunc (q : ℚ) : Int :=
  if q < 0 then ⌈q⌉ else ⌊q⌋

/-- `core.CalculateBackoff`:
`delay := strategy.BaseDelay * time.Duration(math.Pow(strategy.BackoffFactor, float64(attempt)))`,
capped at `strategy.MaxDelay`.  The float power is modelled exactly over ℚ
and the `time.Duration(...)` conversion truncates it to an integer before
the multiplication. -/
def CalculateBackoff (strategy : RetryStrategy) (attempt : Nat) : Int :=
  let delay := strategy.BaseDelay * floatTrunc (strategy.BackoffFactor ^ attempt)
  if delay > strategy.MaxDelay then strategy.MaxDelay else delay

example : CalculateBackoff ⟨5, 100, 1000000000, 0, 2⟩ 3 = 800 := by decide

example : CalculateBackoff ⟨5, 100, 1000000000, 0, 3/2⟩ 1 = 100 := by
  norm_num [CalculateBackoff, floatTrunc]

example : keyPatternOk "job-42" = true := by decide

example : keyPatternOk "has space" = false := by decide

/-! ## The lock table (migrations/v0.0.1.sql)

One row of `"LockSchema"."LockTable"`.  Instants (`valid_until`,
`created_at`, `updated_at`, and the `now` argument of every operation)
count milliseconds; `metadata` is the serialized JSONB value. -/

structure LeaseRow where
  key : String
  lease_id : String
  valid_until : Int
  server_nonce : String
  metadata : String
  created_at : Int
  updated_at : Int
  deriving DecidableEq, Repr

/-- The first row of the table whose `key` column equals `k` (the primary
key makes it unique in any reachable state). -/
def lookupLease (rows : List LeaseRow) (k : String) : Option LeaseRow :=
  rows.find? (fun r => r.key == k)

/-- Result row of the SQL function `try_acquire_lock`:
`(result_acquired BOOLEAN, result_valid_until TIMESTAMPTZ)`. -/
structure TryAcquireRow where
  acquired : Bool
  valid_until : Option Int
  deriving DecidableEq, Repr

/-- The SQL function `"LockSchema".try_acquire_lock(_key, _lease_id,
_ttl_ms, _nonce, _metadata)`:

* raises `ERRCODE 22023` when the key is longer than 256 characters or
  does not match `^[a-zA-Z0-9_-]+$`;
* `INSERT ... ON CONFLICT (key) DO UPDATE SET lease_id, valid_until,
  server_nonce, metadata, updated_at = NOW()` guarded by
  `WHERE existing.valid_until <= NOW()`, with
  `valid_until = NOW() + _ttl_ms + 10` milliseconds (the fixed 10ms
  round-trip padding);
* `RETURNING TRUE, valid_until` feeds the output row, and
  `COALESCE(result_acquired, FALSE)` turns the guarded-out case into
  `(FALSE, NULL)`. -/
def try_acquire_lock (rows : List LeaseRow) (now : Int) (_key _lease_id : String)
    (_ttl_ms : Int) (_nonce _metadata : String) :
    Except PgError (List LeaseRow × TryAcquireRow) :=
  if ¬ (_key.length ≤ 256 ∧ 1 ≤ _key.length ∧ _key.data.all validKeyChar) then
    .error .invalidKeyErrcode
  else
    let vu := now + _ttl_ms + 10
    match lookupLease rows _key with
    | none =>
        .ok (rows ++ [⟨_key, _lease_id, vu, _nonce, _metadata, now, now⟩],
             ⟨true, some vu⟩)
    | some r =>
        if r.valid_until ≤ now then
          .ok (rows.map (fun q => if q.key == _key then
                  { q with lease_id := _lease_id, valid_until := vu,
                           server_nonce := _nonce, metadata := _metadata,
                           updated_at := now }
                else q),
               ⟨true, some vu⟩)
        else
          .ok (rows, ⟨false, none⟩)

/-- The row predicate of `releaseLockSQL`:
`key = $1 AND lease_id = $2 AND server_nonce = $3`. -/
def releaseMatch (key lease_id nonce : String) (r : LeaseRow) : Bool :=
  r.key == key && r.lease_id == lease_id && r.server_nonce == nonce

/-- `releaseLockSQL` (`DELETE FROM ... WHERE key = $1 AND lease_id = $2
AND server_nonce = $3`): the surviving rows and the affected-row count. -/
def releaseLockExec (rows : List LeaseRow) (key lease_id nonce : String) :
    List LeaseRow × Nat :=
  ((rows.filter (fun r => ! releaseMatch key lease_id nonce r)),
   (rows.filter (releaseMatch key lease_id nonce)).length)

/-- `refreshLockSQL` is malformed and can never execute: its text reads
`UPDATE ... SET valid_until = NOW() + ($ttl * INTERVAL '1 millisecond'),
server_nonce = $new_nonce, updated_at = NOW() WHERE key = $1 AND
lease_id = $2 AND server_nonce = $3 AND valid_until > NOW() - ($ttl *
0.15 * INTERVAL '1 millisecond'); RETURNING valid_until;` — `$ttl` and
`$new_nonce` are not valid PostgreSQL placeholders (a parameter is `$`
followed by digits) and `pg.Refresh` binds only three arguments, and the
stray `;` after the `WHERE` clause severs `RETURNING valid_until` into a
second, invalid command.  The backend rejects the statement at parse
time on every execution; this value is that rejection as the scan would
surface it. -/
def refreshSqlSyntaxError : PgError :=
  .other "ERROR: syntax error (SQLSTATE 42601): malformed refreshLockSQL"

example :
    (try_acquire_lock [] 1000 "k" "L" 500 "N" "{}" :
      Except PgError (List LeaseRow × TryAcquireRow)) =
    .ok ([⟨"k", "L", 1510, "N", "{}", 1000, 1000⟩], ⟨true, some 1510⟩) := by
  rfl

example :
    (try_acquire_lock [⟨"k", "L", 1510, "N", "{}", 1000, 1000⟩] 1200 "k" "M" 500 "N2" "{}") =
    .ok ([⟨"k", "L", 1510, "N", "{}", 1000, 1000⟩], ⟨false, none⟩) := by
  rfl

/-! ## pg adapter state

`PostgresLockAdapter` holds a `pgxpool.Pool`; `pool.Close()` is
idempotent and every pool operation afterwards fails with the pool's
closed error.  The adapter state is the pool's closed flag plus the lock
table it reaches. -/

structure DB where
  closed : Bool
  rows : List LeaseRow
  deriving DecidableEq, Repr

/-- `pg.(*PostgresLockAdapter).Close`: calls `p.pool.Close()` and returns
`nil`. -/
def GoClose (db : DB) : DB × Option GoError :=
  ({ db with closed := true }, none)

/-- `core.LockToken`: `Key`, `LeaseID`, `ValidUntil` (an instant, in the
milliseconds of the SQL layer), `ServerNonce`. -/
structure LockToken where
  Key : String
  LeaseID : String
  ValidUntil : Int
  ServerNonce : String
  deriving DecidableEq, Repr

/-- `pg.(*PostgresLockAdapter).IsHeld` (`isHeldLockSQL`): selects
`valid_until > NOW()` and `EXTRACT(EPOCH FROM (valid_until - NOW()))`
for `token.Key` (the only token field the query binds).  `pgx.ErrNoRows`
maps to `(false, 0, nil)`; the Go code then returns
`time.Duration(remainingTTL) * time.Second`, i.e. the fractional epoch
seconds truncated toward zero and scaled to nanoseconds.  Result:
`(held, remaining duration, error)`. -/
def GoIsHeld (db : DB) (now : Int) (token : LockToken) :
    Bool × Int × Option GoError :=
  if db.closed then
    (false, 0, some (.pg .closedPool))
  else
    match lookupLease db.rows token.Key with
    | none => (false, 0, none)
    | some r =>
        (decide (r.valid_until > now),
         floatTrunc (((r.valid_until : ℚ) - (now : ℚ)) / 1000) * 1000000000,
         none)

/-- `pg.(*PostgresLockAdapter).Release`: executes `releaseLockSQL` with
the token's `(Key, LeaseID, ServerNonce)`; an execution error is returned
as-is (the dead `pgx.ErrNoRows` branch maps to the ownership error), and
zero affected rows map to `core.ErrLockOwnershipMismatch`. -/
def GoRelease (db : DB) (token : LockToken) : DB × Option GoError :=
  if db.closed then
    (db, some (.pg .closedPool))
  else
    let res := releaseLockExec db.rows token.Key token.LeaseID token.ServerNonce
    if res.2 = 0 then
      (db, some .lockOwnershipMismatch)
    else
      ({ db with rows := res.1 }, none)

/-- The outcome of `row.Scan(&valid_until)` for the `QueryRow` of
`refreshLockSQL`: the closed-pool error after `Close`, otherwise the
parse rejection of the malformed statement (see
`refreshSqlSyntaxError`).  It is never `pgx.ErrNoRows` and never a
value: the statement fails before touching any row. -/
def refreshLockScan (db : DB) : Except PgError Int :=
  if db.closed then .error .closedPool
  else .error refreshSqlSyntaxError

/-- `pg.(*PostgresLockAdapter).Refresh`: issues `refreshLockSQL` and
scans `valid_until`.  Mirroring the Go control flow: a scan error that is
`pgx.ErrNoRows` maps to `core.ErrRefreshTooLate`, any other scan error is
returned raw, and on a scanned value the code runs
`token.ValidUntil = valid_until` and returns the token.  Because the
scan always errors (the statement cannot be parsed), the
`ErrRefreshTooLate` and success branches are dead code: every call
returns the backend error and the lock table is never touched. -/
def GoRefresh (db : DB) (token : LockToken) (_newTTL_ms : Int) :
    DB × Except GoError LockToken :=
  match refreshLockScan db with
  | .error e =>
      if e = PgError.noRows then (db, .error .refreshTooLate)
      else (db, .error (.pg e))
  | .ok vu => (db, .ok { token with ValidUntil := vu })

/-! ## pg.Acquire (src/pg/acquire.go)

The retry loop issues one `try_acquire_lock` round trip per attempt; the
outcome the Go code distinguishes after `row.Scan` is: scan error,
`acquired = true` with a `validUntil`, or `acquired = false`
(contention).  The loop is modelled against an abstract per-attempt
outcome function so that every backend behaviour (including state
changing between attempts) is covered. -/

inductive AttemptOutcome where
  /-- `row.Scan` succeeded: `(acquired, validUntil)`. -/
  | ok (acquired : Bool) (validUntil : Int)
  /-- `row.Scan` returned an error. -/
  | err (e : PgError)
  deriving DecidableEq, Repr

/-- The contention outcome: scanned fine but not acquired. -/
def AttemptOutcome.contention : AttemptOutcome → Bool
  | .ok false _ => true
  | _ => false

/-- What `pg.Acquire` hands back: a token, or an error. -/
inductive AcquireResult where
  | token (t : LockToken)
  | failure (e : GoError)
  deriving DecidableEq, Repr

/-- The `for attempt := 0; attempt <= opts.RetryStrategy.MaxRetries;
attempt++` loop of `pg.Acquire`.  `fuel` is the number of attempts still
allowed (`maxRetries + 1 - attempt`); the second component collects the
`time.Sleep(core.CalculateBackoff(strategy, attempt))` delays in order.

* `err == nil && acquired`: build the token from `key`, `leaseID`,
  `validUntil`, `nonce` and return it immediately;
* `err == nil && !acquired`: sleep the backoff for this attempt and
  continue;
* any error: return `failed to acquire lock: %w` immediately;
* loop exhausted: return `core.ErrLockAcquisitionFailed`. -/
def acquireLoop (strategy : RetryStrategy) (att : Nat → AttemptOutcome)
    (key leaseID nonce : String) : Nat → Nat → AcquireResult × List Int
  | _, 0 => (.failure .lockAcquisitionFailed, [])
  | attempt, fuel + 1 =>
      match att attempt with
      | .ok true vu => (.token ⟨key, leaseID, vu, nonce⟩, [])
      | .ok false _ =>
          let r := acquireLoop strategy att key leaseID nonce (attempt + 1) fuel
          (r.1, CalculateBackoff strategy attempt :: r.2)
      | .err e => (.failure (.failedToAcquire e), [])

/-- `pg.(*PostgresLockAdapter).Acquire`: validates the key, then the
options (with the mutated `RequestTimeout`), then generates `leaseID` and
`nonce` (parameters here: Go draws fresh UUIDs), marshals the metadata
(infallible for `map[string]string`), and runs the retry loop with
`maxRetries + 1` attempt budget. -/
def GoAcquire (key : String) (opts : LockOptions) (leaseID nonce : String)
    (att : Nat → AttemptOutcome) : AcquireResult × List Int :=
  match ValidateKey key with
  | some e => (.failure e, [])
  | none =>
      match opts.Validate with
      | (_, some e) => (.failure e, [])
      | (o', none) =>
          acquireLoop o'.RetryStrategy att key leaseID nonce 0
            (o'.RetryStrategy.MaxRetries + 1).toNat

/-- The per-attempt outcome a real pool produces for the `QueryRow` of
`try_acquire_lock`: the closed-pool error after `Close`, the raised
SQL error for an invalid key, or the scanned row. -/
def poolAttempt (db : DB) (now : Int) (key leaseID : String) (ttl_ms : Int)
    (nonce metadata : String) : AttemptOutcome :=
  if db.closed then .err .closedPool
  else
    match try_acquire_lock db.rows now key leaseID ttl_ms nonce metadata with
    | .error e => .err e
    | .ok (_, row) => .ok row.acquired (row.valid_until.getD 0)

/-! ## pg.HealthCheck (src/pg/implementation.go) -/

/-- `core.HealthStatus`. -/
inductive HealthStatus where
  | green
  | yellow
  | red
  deriving DecidableEq, Repr

/-- `core.HealthReport`.  `Error` is an `Option`: `none` is Go's `nil`
error interface, `some msg` is a non-nil `error` with message `msg` (so
`errors.New ""` is `some ""`, not `none`). -/
structure HealthReport where
  Status : HealthStatus
  Latency : Int
  Throughput : Int
  Error : Option String
  deriving DecidableEq, Repr

/-- The message of a backend error, as `err.Error()` would render it. -/
def PgError.message : PgError → String
  | .noRows => "no rows in result set"
  | .closedPool => "closed pool"
  | .invalidKeyErrcode => "ERROR: Invalid key format (SQLSTATE 22023)"
  | .other msg => msg

/-- `pg.(*PostgresLockAdapter).HealthCheck`: probes `SELECT 1` under a
2s timeout; `probe` is the scan outcome, `latency` the measured query
time and `acquiredConns` the pool's acquired-connection count.  The
status starts green and turns red when the scan errs or the result is
not 1; `errMsg` stays `""` otherwise — and the report's `Error` field is
always `errors.New(errMsg)`, a non-nil error value. -/
def HealthCheck (probe : Except PgError Int) (latency : Int)
    (acquiredConns : Int) : HealthReport :=
  let bad : Bool :=
    match probe with
    | .error _ => true
    | .ok result => result != 1
  let errMsg : String :=
    match probe with
    | .error e => e.message
    | .ok result => if result != 1 then "unexpected query result" else ""
  { Status := if bad then .red else .green
    Latency := latency
    Throughput := acquiredConns
    Error := some errMsg }

/-! ## Claim theorems -/

/-- C10: every report returned by the Postgres adapter's `HealthCheck`
carries a non-nil `Error` value — even a successful probe yields status
green together with a freshly constructed error whose message is empty —
so a nil-versus-non-nil check on `Error` cannot detect failure. -/
theorem healthCheck_error_always_non_nil (probe : Except PgError Int)
    (latency conns : Int) :
    (HealthCheck probe latency conns).Error.isSome = true ∧
    (HealthCheck (Except.ok 1) latency conns).Status = HealthStatus.green ∧
    (HealthCheck (Except.ok 1) latency conns).Error = some "" := by
  refine ⟨?_, rfl, rfl⟩
  cases probe <;> rfl

/-- C9: the result of `IsHeld` depends only on the token's key — two
tokens with the same key, whatever their `LeaseID`, `ServerNonce` or
`ValidUntil`, get the same `(held, remainingTTL, error)` against the same
backend state — and an unexpired lease on the key reports `held = true`
no matter which identity the presented token carries. -/
theorem isHeld_depends_only_on_key (db : DB) (now : Int) (t1 t2 : LockToken)
    (hkey : t1.Key = t2.Key) :
    GoIsHeld db now t1 = GoIsHeld db now t2 ∧
    (db.closed = false → ∀ r, lookupLease db.rows t1.Key = some r →
      now < r.valid_until → (GoIsHeld db now t1).1 = true) := by
  constructor
  · simp only [GoIsHeld, hkey]
  · intro hcl r hr hvu
    simp [GoIsHeld, hcl, hr, hvu]

theorem isHeld_depends_only_on_key_witness :
    GoIsHeld ⟨false, [⟨"k", "L", 100, "N", "{}", 0, 0⟩]⟩ 50 ⟨"k", "L", 100, "N"⟩ =
      GoIsHeld ⟨false, [⟨"k", "L", 100, "N", "{}", 0, 0⟩]⟩ 50 ⟨"k", "X", 5, "Y"⟩ ∧
    (GoIsHeld ⟨false, [⟨"k", "L", 100, "N", "{}", 0, 0⟩]⟩ 50 ⟨"k", "X", 5, "Y"⟩).1 = true := by
  constructor
  · exact (isHeld_depends_only_on_key _ 50 _ _ rfl).1
  · exact (isHeld_depends_only_on_key _ 50 ⟨"k", "X", 5, "Y"⟩ ⟨"k", "L", 100, "N"⟩ rfl).2
      rfl ⟨"k", "L", 100, "N", "{}", 0, 0⟩ rfl (by decide)

/-- C4: `Release` deletes a lease row exactly when the token's key,
leaseID and serverNonce all match it; whenever zero rows are affected it
returns the single uniform ownership-mismatch error — and only then —
and performs no mutation, leaving the stored lease untouched. -/
theorem release_deletes_iff_exact_match (db : DB) (token : LockToken)
    (hopen : db.closed = false) :
    ((GoRelease db token).2 = none ↔
      ∃ r ∈ db.rows, releaseMatch token.Key token.LeaseID token.ServerNonce r = true) ∧
    ((GoRelease db token).2 = some GoError.lockOwnershipMismatch ↔
      ∀ r ∈ db.rows, releaseMatch token.Key token.LeaseID token.ServerNonce r = false) ∧
    (∀ r ∈ db.rows,
      (r ∈ (GoRelease db token).1.rows ↔
        releaseMatch token.Key token.LeaseID token.ServerNonce r = false)) ∧
    ((GoRelease db token).2 = some GoError.lockOwnershipMismatch →
      (GoRelease db token).1 = db) := by
  have hzero :
      ((db.rows.filter (releaseMatch token.Key token.LeaseID token.ServerNonce)).length = 0
        ↔ ∀ r ∈ db.rows, releaseMatch token.Key token.LeaseID token.ServerNonce r = false) := by
    rw [List.length_eq_zero, List.filter_eq_nil_iff]
    simp
  by_cases h : (db.rows.filter (releaseMatch token.Key token.LeaseID token.ServerNonce)).length = 0
  · have hall := hzero.mp h
    refine ⟨?_, ?_, ?_, ?_⟩
    · simp only [GoRelease, hopen, releaseLockExec, Bool.false_eq_true, if_false, h, if_pos rfl]
      constructor
      · intro hc; cases hc
      · rintro ⟨r, hr, hm⟩
        exact absurd hm (by simp [hall r hr])
    · simp only [GoRelease, hopen, releaseLockExec, Bool.false_eq_true, if_false, h, if_pos rfl]
      exact ⟨fun _ => hall, fun _ => rfl⟩
    · intro r hr
      simp only [GoRelease, hopen, releaseLockExec, Bool.false_eq_true, if_false, h, if_pos rfl]
      exact ⟨fun _ => hall r hr, fun _ => hr⟩
    · intro _
      simp [GoRelease, hopen, releaseLockExec, h]
  · refine ⟨?_, ?_, ?_, ?_⟩
    · simp only [GoRelease, hopen, releaseLockExec, Bool.false_eq_true, if_false, if_neg h]
      constructor
      · intro _
        rcases List.length_pos.mp (Nat.pos_of_ne_zero h) with hne
        rcases List.exists_mem_of_ne_nil _ hne with ⟨r, hr⟩
        exact ⟨r, (List.mem_filter.mp hr).1, (List.mem_filter.mp hr).2⟩
      · intro _; trivial
    · simp only [GoRelease, hopen, releaseLockExec, Bool.false_eq_true, if_false, if_neg h]
      constructor
      · intro hc; cases hc
      · intro hall
        exact absurd (hzero.mpr hall) h
    · intro r hr
      simp only [GoRelease, hopen, releaseLockExec, Bool.false_eq_true, if_false, if_neg h,
        List.mem_filter]
      simp [hr]
    · intro hc
      simp [GoRelease, hopen, releaseLockExec, h] at hc

theorem release_deletes_iff_exact_match_witness :
    (GoRelease ⟨false, [⟨"k", "L", 100, "N", "{}", 0, 0⟩]⟩ ⟨"k", "L", 100, "N"⟩).2 = none ∧
    (GoRelease ⟨false, [⟨"k", "L", 100, "N", "{}", 0, 0⟩]⟩ ⟨"k", "X", 100, "N"⟩).2 =
      some GoError.lockOwnershipMismatch := by
  constructor
  · exact (release_deletes_iff_exact_match _ _ rfl).1.mpr
      ⟨⟨"k", "L", 100, "N", "{}", 0, 0⟩, by decide, by decide⟩
  · exact (release_deletes_iff_exact_match _ _ rfl).2.1.mpr (by decide)

/-- Finding a key in a table transformed row-by-row commutes with the
transformation whenever it leaves the `key` column unchanged. -/
theorem find?_key_map (f : LeaseRow → LeaseRow) (hf : ∀ r, (f r).key = r.key)
    (rows : List LeaseRow) (key : String) :
    (rows.map f).find? (fun r => r.key == key) =
      (rows.find? (fun r => r.key == key)).map f := by
  induction rows with
  | nil => rfl
  | cons q rest ih =>
      have hq : ((f q).key == key) = (q.key == key) := by rw [hf q]
      simp only [List.map_cons, List.find?]
      rw [hq]
      cases hb : (q.key == key) with
      | true => rfl
      | false => exact ih

/-- The conflict-update of `try_acquire_lock` leaves the `key` column
unchanged, so looking the key up after the update finds the updated
version of the row the lookup found before. -/
theorem lookupLease_conflict_update (rows : List LeaseRow) (key leaseID nonce metadata : String)
    (vu now : Int) :
    lookupLease (rows.map (fun q => if q.key == key then
        { q with lease_id := leaseID, valid_until := vu, server_nonce := nonce,
                 metadata := metadata, updated_at := now } else q)) key =
    (lookupLease rows key).map (fun q => if q.key == key then
        { q with lease_id := leaseID, valid_until := vu, server_nonce := nonce,
                 metadata := metadata, updated_at := now } else q) := by
  unfold lookupLease
  exact find?_key_map _
    (by intro r; by_cases hr : (r.key == key) = true <;> simp [hr]) rows key

/-- C1: for a well-formed key, `try_acquire_lock` grants exactly when the
table has no row for the key or the existing row's `valid_until` has
elapsed — writing a lease carrying the caller's lease id, nonce and
metadata and answering `(true, now + ttl + 10ms)` — and whenever an
unexpired lease exists it writes nothing and answers `(false, NULL)`
without error. -/
theorem tryAcquire_grants_iff_free_or_expired
    (rows : List LeaseRow) (now : Int) (key leaseID : String) (ttl_ms : Int)
    (nonce metadata : String) (hkey : keyPatternOk key = true) :
    ((∀ r, lookupLease rows key = some r → r.valid_until ≤ now) →
      ∃ rows', try_acquire_lock rows now key leaseID ttl_ms nonce metadata =
          Except.ok (rows', ⟨true, some (now + ttl_ms + 10)⟩) ∧
        ∃ r', lookupLease rows' key = some r' ∧
          r'.lease_id = leaseID ∧ r'.valid_until = now + ttl_ms + 10 ∧
          r'.server_nonce = nonce ∧ r'.metadata = metadata) ∧
    (∀ r, lookupLease rows key = some r → now < r.valid_until →
      try_acquire_lock rows now key leaseID ttl_ms nonce metadata =
        Except.ok (rows, ⟨false, none⟩)) := by
  have hk : key.length ≤ 256 ∧ 1 ≤ key.length ∧ key.data.all validKeyChar = true := by
    simp only [keyPatternOk, Bool.and_eq_true, decide_eq_true_eq] at hkey
    exact ⟨hkey.1.2, hkey.1.1, hkey.2⟩
  constructor
  · intro hfree
    cases hlook : lookupLease rows key with
    | none =>
        refine ⟨rows ++ [⟨key, leaseID, now + ttl_ms + 10, nonce, metadata, now, now⟩],
          ?_, ⟨key, leaseID, now + ttl_ms + 10, nonce, metadata, now, now⟩, ?_, rfl, rfl, rfl, rfl⟩
        · simp only [try_acquire_lock, if_neg (not_not_intro hk), hlook]
        · unfold lookupLease at hlook ⊢
          rw [List.find?_append, hlook]
          simp
    | some r =>
        have hexp : r.valid_until ≤ now := hfree r hlook
        have hrk : (r.key == key) = true := by
          have h' : rows.find? (fun x => x.key == key) = some r := hlook
          simpa using List.find?_some h'
        refine ⟨rows.map (fun q => if q.key == key then
            { q with lease_id := leaseID, valid_until := now + ttl_ms + 10,
                     server_nonce := nonce, metadata := metadata, updated_at := now }
          else q), ?_, ?_⟩
        · simp only [try_acquire_lock, if_neg (not_not_intro hk), hlook, if_pos hexp]
        · rw [lookupLease_conflict_update, hlook]
          exact ⟨_, rfl, by simp [hrk]⟩
  · intro r hlook hunexp
    simp only [try_acquire_lock, if_neg (not_not_intro hk), hlook,
      if_neg (not_le.mpr hunexp)]

theorem tryAcquire_grants_iff_free_or_expired_witness :
    (∃ rows', try_acquire_lock [] 1000 "k" "L" 500 "N" "{}" =
        Except.ok (rows', ⟨true, some 1510⟩) ∧
      ∃ r', lookupLease rows' "k" = some r' ∧
        r'.lease_id = "L" ∧ r'.valid_until = 1510 ∧
        r'.server_nonce = "N" ∧ r'.metadata = "{}") ∧
    try_acquire_lock [⟨"k", "L", 1510, "N", "{}", 1000, 1000⟩] 1200 "k" "M" 500 "N2" "{}" =
      Except.ok ([⟨"k", "L", 1510, "N", "{}", 1000, 1000⟩], ⟨false, none⟩) := by
  constructor
  · exact (tryAcquire_grants_iff_free_or_expired [] 1000 "k" "L" 500 "N" "{}"
      (by decide)).1 (by intro r h; cases h)
  · exact (tryAcquire_grants_iff_free_or_expired _ 1200 "k" "M" 500 "N2" "{}"
      (by decide)).2 ⟨"k", "L", 1510, "N", "{}", 1000, 1000⟩ rfl (by decide)

/-- Modelled from the spec: the backoff formula §4.2 claims for a
jitter-free strategy, `min(maxDelay, baseDelay × backoffFactor^i)`, as
exact arithmetic over the rationals. -/
def specBackoffDelay (strategy : RetryStrategy) (i : Nat) : ℚ :=
  min (strategy.MaxDelay : ℚ) ((strategy.BaseDelay : ℚ) * strategy.BackoffFactor ^ i)

/-- C7 counterexample: with `jitterFactor = 0`, `baseDelay = 100`,
`maxDelay = 1s` and `backoffFactor = 1.5`, the delay the code computes
for attempt 1 is `100`, not the `min(maxDelay, baseDelay × backoffFactor^1)
= 150` the claim states: `time.Duration(math.Pow(1.5, 1))` truncates the
power to `1` before the multiplication. -/
theorem calculateBackoff_deviates_from_claimed_formula :
    ((CalculateBackoff ⟨5, 100, 1000000000, 0, 3/2⟩ 1 : Int) : ℚ) ≠
      specBackoffDelay ⟨5, 100, 1000000000, 0, 3/2⟩ 1 ∧
    CalculateBackoff ⟨5, 100, 1000000000, 0, 3/2⟩ 1 = 100 ∧
    specBackoffDelay ⟨5, 100, 1000000000, 0, 3/2⟩ 1 = 150 := by
  refine ⟨?_, ?_, ?_⟩ <;>
    norm_num [CalculateBackoff, specBackoffDelay, floatTrunc]

/-- C7 amended: for a strategy with `jitterFactor = 0` and an integer
`backoffFactor = n`, the delay for every attempt `i` equals
`min(maxDelay, baseDelay × n^i)`; for fractional factors the
float-to-Duration conversion truncates `backoffFactor^i` to an integer
before multiplying (see the counterexample). -/
theorem calculateBackoff_integer_factor (strategy : RetryStrategy) (n i : ℕ)
    (_hj : strategy.JitterFactor = 0) (hn : strategy.BackoffFactor = (n : ℚ)) :
    CalculateBackoff strategy i = min strategy.MaxDelay (strategy.BaseDelay * (n : ℤ) ^ i) := by
  unfold CalculateBackoff floatTrunc
  rw [hn]
  have h1 : ((n : ℚ) ^ i) = (((n : ℤ) ^ i : ℤ) : ℚ) := by push_cast; ring
  have h2 : ¬ ((((n : ℤ) ^ i : ℤ) : ℚ) < 0) := by
    rw [not_lt]
    exact_mod_cast pow_nonneg (Int.ofNat_nonneg n) i
  rw [h1, if_neg h2, Int.floor_intCast]
  rcases le_or_lt (strategy.BaseDelay * (n : ℤ) ^ i) strategy.MaxDelay with h | h
  · rw [if_neg (not_lt.mpr h), min_eq_right h]
  · rw [if_pos h, min_eq_left h.le]

theorem calculateBackoff_integer_factor_witness :
    (⟨5, 100, 1000000000, 0, 2⟩ : RetryStrategy).JitterFactor = 0 ∧
    (⟨5, 100, 1000000000, 0, 2⟩ : RetryStrategy).BackoffFactor = ((2 : ℕ) : ℚ) ∧
    CalculateBackoff ⟨5, 100, 1000000000, 0, 2⟩ 3 =
      min (1000000000 : ℤ) (100 * ((2 : ℕ) : ℤ) ^ 3) :=
  ⟨rfl, by norm_num,
   calculateBackoff_integer_factor ⟨5, 100, 1000000000, 0, 2⟩ 2 3 rfl (by norm_num)⟩


/-! ## C6: the validation gate of pg.Acquire -/

/-- The error kinds produced by the input validators (`core.ValidateKey`,
`core.LockOptions.Validate`, `core.RetryStrategy.Validate`). -/
def GoError.isValidation : GoError → Bool
  | .invalidKeyFormat _ => true
  | .invalidTTL _ => true
  | .validationMsg _ => true
  | _ => false

/-- An acquire outcome that is a validation failure. -/
def AcquireResult.isValidationFailure : AcquireResult → Bool
  | .failure e => e.isValidation
  | .token _ => false

/-- The retry loop itself never produces a validation-kind error: it
yields a token, a wrapped backend error, or the exhaustion error. -/
theorem acquireLoop_no_validation_error (s : RetryStrategy)
    (att : Nat → AttemptOutcome) (key leaseID nonce : String) :
    ∀ (fuel a : Nat),
      (acquireLoop s att key leaseID nonce a fuel).1.isValidationFailure = false := by
  intro fuel
  induction fuel with
  | zero => intro a; rfl
  | succ fuel ih =>
      intro a
      simp only [acquireLoop]
      cases h : att a with
      | ok acq vu =>
          cases acq
          · simpa using ih (a + 1)
          · rfl
      | err e => rfl

/-- `RetryStrategy.Validate` either passes or returns one of its three
`errors.New` messages. -/
theorem strategyValidate_shape (r : RetryStrategy) :
    r.Validate = none ∨ ∃ msg, r.Validate = some (.validationMsg msg) := by
  unfold RetryStrategy.Validate
  by_cases h1 : r.MaxRetries < 0
  · exact Or.inr ⟨"max retries must be >= 0", by simp [h1]⟩
  by_cases h2 : r.JitterFactor < 0 ∨ r.JitterFactor > 1
  · exact Or.inr ⟨"jitter factor must be [0.0, 1.0]", by simp [h1, h2]⟩
  by_cases h3 : r.BackoffFactor < 1
  · exact Or.inr ⟨"backoff factor must be >= 1", by simp [h1, h2, h3]⟩
  · exact Or.inl (by simp [h1, h2, h3])

/-- `RetryStrategy.Validate` passes exactly on the bounds it checks. -/
theorem strategyValidate_none_iff (r : RetryStrategy) :
    r.Validate = none ↔
      (0 ≤ r.MaxRetries ∧ 0 ≤ r.JitterFactor ∧ r.JitterFactor ≤ 1 ∧
       1 ≤ r.BackoffFactor) := by
  unfold RetryStrategy.Validate
  constructor
  · intro h
    by_cases h1 : r.MaxRetries < 0
    · simp [h1] at h
    by_cases h2 : r.JitterFactor < 0 ∨ r.JitterFactor > 1
    · simp [h1, h2] at h
    by_cases h3 : r.BackoffFactor < 1
    · simp [h1, h2, h3] at h
    · push_neg at h1 h2 h3
      exact ⟨h1, h2.1, h2.2, h3⟩
  · rintro ⟨a, b, c, d⟩
    have h1 : ¬ r.MaxRetries < 0 := not_lt.mpr a
    have h2 : ¬ (r.JitterFactor < 0 ∨ r.JitterFactor > 1) := by
      push_neg
      exact ⟨b, c⟩
    have h3 : ¬ r.BackoffFactor < 1 := not_lt.mpr d
    simp [h1, h2, h3]

/-- The error component of `LockOptions.Validate` does not depend on the
`RequestTimeout` defaulting. -/
theorem optionsValidate_snd (o : LockOptions) :
    (o.Validate).2 =
      if o.TTL < MinLockTTL ∨ o.TTL > MaxLockTTL then some (.invalidTTL o.TTL)
      else o.RetryStrategy.Validate := by
  unfold LockOptions.Validate
  by_cases h : o.TTL < MinLockTTL ∨ o.TTL > MaxLockTTL
  · simp [h]
  · by_cases hrt : o.RequestTimeout ≤ 0 <;> simp [h, hrt]

/-- The options coming out of `LockOptions.Validate` carry the original
retry strategy. -/
theorem optionsValidate_fst_strategy (o : LockOptions) :
    (o.Validate).1.RetryStrategy = o.RetryStrategy := by
  unfold LockOptions.Validate
  by_cases h : o.TTL < MinLockTTL ∨ o.TTL > MaxLockTTL
  · simp [h]
  · by_cases hrt : o.RequestTimeout ≤ 0 <;> simp [h, hrt]

/-- `GoAcquire` presented through the two validation gates. -/
theorem goAcquire_eq (key : String) (opts : LockOptions) (leaseID nonce : String)
    (att : Nat → AttemptOutcome) :
    GoAcquire key opts leaseID nonce att =
      match ValidateKey key with
      | some e => (.failure e, [])
      | none =>
          match (opts.Validate).2 with
          | some e => (.failure e, [])
          | none =>
              acquireLoop (opts.Validate).1.RetryStrategy att key leaseID nonce 0
                ((opts.Validate).1.RetryStrategy.MaxRetries + 1).toNat := by
  unfold GoAcquire
  rcases h : opts.Validate with ⟨o2, e⟩
  cases e <;> cases ValidateKey key <;> simp [h]

/-- The checks `pg.Acquire` actually performs before its first backend
round trip: the key pattern, the TTL range and the three retry-strategy
bounds (`BaseDelay` and `MaxDelay` are never inspected). -/
def acquireInputsValid (key : String) (opts : LockOptions) : Prop :=
  keyPatternOk key = true ∧
  MinLockTTL ≤ opts.TTL ∧ opts.TTL ≤ MaxLockTTL ∧
  0 ≤ opts.RetryStrategy.MaxRetries ∧
  0 ≤ opts.RetryStrategy.JitterFactor ∧ opts.RetryStrategy.JitterFactor ≤ 1 ∧
  1 ≤ opts.RetryStrategy.BackoffFactor

/-- C6 counterexample: options with `BaseDelay = 0` (and `MaxDelay = 0 <
BaseDelay` vacuously satisfied) pass validation and reach the backend —
`Acquire` returns the backend's token instead of the validation error the
claim requires for a strategy violating `baseDelay > 0`. -/
theorem acquire_accepts_zero_baseDelay :
    (⟨MinLockTTL, ⟨0, 0, 0, 0, 1⟩, "{}", 1000⟩ : LockOptions).RetryStrategy.BaseDelay = 0 ∧
    GoAcquire "k" ⟨MinLockTTL, ⟨0, 0, 0, 0, 1⟩, "{}", 1000⟩ "L" "N" (fun _ => .ok true 42) =
      (.token ⟨"k", "L", 42, "N"⟩, []) := by
  exact ⟨rfl, rfl⟩

/-- C6 amended: `Acquire` fails fast with a validation error exactly when
the key does not match `[A-Za-z0-9_-]{1,256}`, the TTL lies outside
`[1ms, 10min]`, or the retry strategy violates `maxRetries ≥ 0`,
`jitterFactor ∈ [0,1]` or `backoffFactor ≥ 1` — `baseDelay` and
`maxDelay` are never validated — and on such invalid input no backend
call is made: the result does not depend on the backend at all. -/
theorem acquire_validation_gate (key : String) (opts : LockOptions)
    (leaseID nonce : String) (att : Nat → AttemptOutcome) :
    ((GoAcquire key opts leaseID nonce att).1.isValidationFailure = true ↔
      ¬ acquireInputsValid key opts) ∧
    (¬ acquireInputsValid key opts →
      ∀ att2, GoAcquire key opts leaseID nonce att = GoAcquire key opts leaseID nonce att2) := by
  by_cases hv : acquireInputsValid key opts
  · obtain ⟨hkey, h1, h2, h3, h4, h5, h6⟩ := hv
    have hvk : ValidateKey key = none := by simp [ValidateKey, hkey]
    have hsv : opts.RetryStrategy.Validate = none :=
      (strategyValidate_none_iff _).mpr ⟨h3, h4, h5, h6⟩
    have httl : ¬ (opts.TTL < MinLockTTL ∨ opts.TTL > MaxLockTTL) := by
      push_neg
      exact ⟨h1, h2⟩
    have hov : (opts.Validate).2 = none := by
      rw [optionsValidate_snd, if_neg httl]
      exact hsv
    have hres : GoAcquire key opts leaseID nonce att =
        acquireLoop (opts.Validate).1.RetryStrategy att key leaseID nonce 0
          ((opts.Validate).1.RetryStrategy.MaxRetries + 1).toNat := by
      rw [goAcquire_eq, hvk, hov]
    constructor
    · rw [hres, acquireLoop_no_validation_error]
      simp [acquireInputsValid, hkey, h1, h2, h3, h4, h5, h6]
    · intro hc
      exact absurd ⟨hkey, h1, h2, h3, h4, h5, h6⟩ hc
  · have hfail : ∃ e, e.isValidation = true ∧
        ∀ att1 : Nat → AttemptOutcome,
          GoAcquire key opts leaseID nonce att1 = (.failure e, []) := by
      by_cases hkey : keyPatternOk key = true
      · have hvk : ValidateKey key = none := by simp [ValidateKey, hkey]
        by_cases httl : opts.TTL < MinLockTTL ∨ opts.TTL > MaxLockTTL
        · refine ⟨.invalidTTL opts.TTL, rfl, ?_⟩
          intro att1
          have hov : (opts.Validate).2 = some (.invalidTTL opts.TTL) := by
            rw [optionsValidate_snd, if_pos httl]
          rw [goAcquire_eq, hvk, hov]
        · rcases strategyValidate_shape opts.RetryStrategy with hnone | ⟨msg, hsome⟩
          · exfalso
            apply hv
            obtain ⟨a, b, c, d⟩ := (strategyValidate_none_iff _).mp hnone
            push_neg at httl
            exact ⟨hkey, httl.1, httl.2, a, b, c, d⟩
          · refine ⟨.validationMsg msg, rfl, ?_⟩
            intro att1
            have hov : (opts.Validate).2 = some (.validationMsg msg) := by
              rw [optionsValidate_snd, if_neg httl]
              exact hsome
            rw [goAcquire_eq, hvk, hov]
      · have hvk : ValidateKey key = some (.invalidKeyFormat key) := by
          simp [ValidateKey, hkey]
        refine ⟨.invalidKeyFormat key, rfl, ?_⟩
        intro att1
        rw [goAcquire_eq, hvk]
    obtain ⟨e, hev, he⟩ := hfail
    constructor
    · rw [he att]
      simp [AcquireResult.isValidationFailure, hev, hv]
    · intro _ att2
      rw [he att, he att2]

theorem acquire_validation_gate_witness :
    ¬ acquireInputsValid "k" ⟨0, ⟨0, 1, 1, 0, 1⟩, "{}", 1000⟩ ∧
    GoAcquire "k" ⟨0, ⟨0, 1, 1, 0, 1⟩, "{}", 1000⟩ "L" "N" (fun _ => .ok true 42) =
      GoAcquire "k" ⟨0, ⟨0, 1, 1, 0, 1⟩, "{}", 1000⟩ "L" "N" (fun _ => .err .closedPool) := by
  have hinv : ¬ acquireInputsValid "k" ⟨0, ⟨0, 1, 1, 0, 1⟩, "{}", 1000⟩ :=
    fun h => absurd h.2.1 (by decide)
  exact ⟨hinv, (acquire_validation_gate "k" _ "L" "N" _).2 hinv _⟩

/-! ## C5: the retry loop contract -/

/-- Prepending the backoff of attempt `a` to the delays of attempts
`a+1, …` packs into one delay list over `range (k+1)`. -/
theorem backoff_delays_cons (s : RetryStrategy) (a k : Nat) (tail : List Int) :
    CalculateBackoff s a ::
      ((List.range k).map (fun j => CalculateBackoff s (a + 1 + j)) ++ tail) =
    (List.range (k + 1)).map (fun j => CalculateBackoff s (a + j)) ++ tail := by
  have hmap : (List.range k).map (fun j => CalculateBackoff s (a + 1 + j)) =
      (List.range k).map ((fun j => CalculateBackoff s (a + j)) ∘ Nat.succ) := by
    apply List.map_congr_left
    intro j _
    simp only [Function.comp_apply]
    congr 1
    omega
  rw [List.range_succ_eq_map, List.map_cons, List.map_map, List.cons_append, hmap,
    Nat.add_zero]

/-- A contention outcome is `.ok false v` for some scanned value. -/
theorem contention_shape (o : AttemptOutcome) (h : o.contention = true) :
    ∃ v, o = .ok false v := by
  cases o with
  | ok acq vu =>
      cases acq
      · exact ⟨vu, rfl⟩
      · simp [AttemptOutcome.contention] at h
  | err e => simp [AttemptOutcome.contention] at h

/-- Skipping a prefix of `k` contention attempts: the loop starting at
attempt `a` with `fuel ≥ k` budget behaves as the loop starting at
attempt `a + k`, with the backoff delays of the skipped attempts slept
first. -/
theorem acquireLoop_skip (s : RetryStrategy) (att : Nat → AttemptOutcome)
    (key leaseID nonce : String) :
    ∀ (k fuel a : Nat), k ≤ fuel →
      (∀ j, j < k → (att (a + j)).contention = true) →
      acquireLoop s att key leaseID nonce a fuel =
        ((acquireLoop s att key leaseID nonce (a + k) (fuel - k)).1,
         (List.range k).map (fun j => CalculateBackoff s (a + j)) ++
           (acquireLoop s att key leaseID nonce (a + k) (fuel - k)).2) := by
  intro k
  induction k with
  | zero =>
      intro fuel a _ _
      simp
  | succ k ih =>
      intro fuel a hk hc
      cases fuel with
      | zero => omega
      | succ fuel =>
          obtain ⟨v, hv⟩ := contention_shape (att a) (by simpa using hc 0 (Nat.succ_pos k))
          have hstep : acquireLoop s att key leaseID nonce a (fuel + 1) =
              ((acquireLoop s att key leaseID nonce (a + 1) fuel).1,
               CalculateBackoff s a :: (acquireLoop s att key leaseID nonce (a + 1) fuel).2) := by
            simp only [acquireLoop, hv]
          have hihc : ∀ j, j < k → (att (a + 1 + j)).contention = true := by
            intro j hj
            have := hc (j + 1) (by omega)
            have harg : a + (j + 1) = a + 1 + j := by omega
            rwa [harg] at this
          have hih := ih fuel (a + 1) (by omega) hihc
          have harg2 : a + 1 + k = a + (k + 1) := by omega
          rw [hstep, hih, harg2, backoff_delays_cons]
          simp [Nat.succ_sub_succ]

/-- C5: with valid inputs, `Acquire` runs attempts `0 … maxRetries`; the
first attempt that scans `acquired = true` returns a token built from the
scanned `validUntil` immediately, after sleeping exactly the computed
backoff of every earlier (contended) attempt; a scan error at any attempt
aborts the loop immediately, wrapped as the failed-to-acquire error; and
if every allowed attempt ends in contention the distinct
`ErrLockAcquisitionFailed` is returned. -/
theorem acquire_retry_contract (key : String) (opts : LockOptions)
    (leaseID nonce : String) (att : Nat → AttemptOutcome) (o2 : LockOptions)
    (hkey : ValidateKey key = none) (hval : opts.Validate = (o2, none)) :
    (∀ k vu, k < (o2.RetryStrategy.MaxRetries + 1).toNat →
      (∀ j, j < k → (att j).contention = true) → att k = .ok true vu →
      GoAcquire key opts leaseID nonce att =
        (.token ⟨key, leaseID, vu, nonce⟩,
         (List.range k).map (CalculateBackoff o2.RetryStrategy))) ∧
    (∀ k e, k < (o2.RetryStrategy.MaxRetries + 1).toNat →
      (∀ j, j < k → (att j).contention = true) → att k = .err e →
      GoAcquire key opts leaseID nonce att =
        (.failure (.failedToAcquire e),
         (List.range k).map (CalculateBackoff o2.RetryStrategy))) ∧
    ((∀ j, j < (o2.RetryStrategy.MaxRetries + 1).toNat → (att j).contention = true) →
      GoAcquire key opts leaseID nonce att =
        (.failure .lockAcquisitionFailed,
         (List.range (o2.RetryStrategy.MaxRetries + 1).toNat).map
           (CalculateBackoff o2.RetryStrategy))) := by
  have hred : GoAcquire key opts leaseID nonce att =
      acquireLoop o2.RetryStrategy att key leaseID nonce 0
        (o2.RetryStrategy.MaxRetries + 1).toNat := by
    unfold GoAcquire
    rw [hkey, hval]
  have hdelays : ∀ k : Nat,
      (List.range k).map (fun j => CalculateBackoff o2.RetryStrategy (0 + j)) =
        (List.range k).map (CalculateBackoff o2.RetryStrategy) := by
    intro k
    apply List.map_congr_left
    intro j _
    rw [Nat.zero_add]
  refine ⟨?_, ?_, ?_⟩
  · intro k vu hk hc hs
    have hskip := acquireLoop_skip o2.RetryStrategy att key leaseID nonce k
      (o2.RetryStrategy.MaxRetries + 1).toNat 0 (le_of_lt hk)
      (by intro j hj; simpa using hc j hj)
    have hfuel : ∃ m, (o2.RetryStrategy.MaxRetries + 1).toNat - k = m + 1 :=
      ⟨(o2.RetryStrategy.MaxRetries + 1).toNat - k - 1, by omega⟩
    obtain ⟨m, hm⟩ := hfuel
    have hstep : acquireLoop o2.RetryStrategy att key leaseID nonce (0 + k)
        ((o2.RetryStrategy.MaxRetries + 1).toNat - k) =
        (.token ⟨key, leaseID, vu, nonce⟩, []) := by
      rw [hm]
      have h0k : 0 + k = k := Nat.zero_add k
      simp only [acquireLoop, h0k, hs]
    rw [hred, hskip, hstep, hdelays]
    simp
  · intro k e hk hc hs
    have hskip := acquireLoop_skip o2.RetryStrategy att key leaseID nonce k
      (o2.RetryStrategy.MaxRetries + 1).toNat 0 (le_of_lt hk)
      (by intro j hj; simpa using hc j hj)
    have hfuel : ∃ m, (o2.RetryStrategy.MaxRetries + 1).toNat - k = m + 1 :=
      ⟨(o2.RetryStrategy.MaxRetries + 1).toNat - k - 1, by omega⟩
    obtain ⟨m, hm⟩ := hfuel
    have hstep : acquireLoop o2.RetryStrategy att key leaseID nonce (0 + k)
        ((o2.RetryStrategy.MaxRetries + 1).toNat - k) =
        (.failure (.failedToAcquire e), []) := by
      rw [hm]
      have h0k : 0 + k = k := Nat.zero_add k
      simp only [acquireLoop, h0k, hs]
    rw [hred, hskip, hstep, hdelays]
    simp
  · intro hall
    have hskip := acquireLoop_skip o2.RetryStrategy att key leaseID nonce
      (o2.RetryStrategy.MaxRetries + 1).toNat
      (o2.RetryStrategy.MaxRetries + 1).toNat 0 le_rfl
      (by intro j hj; simpa using hall j hj)
    rw [hred, hskip, Nat.sub_self, hdelays]
    simp [acquireLoop]

theorem acquire_retry_contract_witness :
    GoAcquire "k" ⟨MinLockTTL, ⟨2, 100, 1000000000, 0, 2⟩, "{}", 1000⟩ "L" "N"
        (fun i => if i == 0 then .ok false 0 else .ok true 42) =
      (.token ⟨"k", "L", 42, "N"⟩,
       (List.range 1).map (CalculateBackoff (⟨2, 100, 1000000000, 0, 2⟩ : RetryStrategy))) := by
  refine (acquire_retry_contract "k" ⟨MinLockTTL, ⟨2, 100, 1000000000, 0, 2⟩, "{}", 1000⟩
    "L" "N" _ ⟨MinLockTTL, ⟨2, 100, 1000000000, 0, 2⟩, "{}", 1000⟩ rfl rfl).1 1 42
    (by decide) ?_ rfl
  intro j hj
  have hj0 : j = 0 := by omega
  subst hj0
  rfl

/-! ## C8: Close and operations after Close -/

/-- C8 counterexample: after `Close`, `Release` fails — but with the
pool's closed-pool error, not with `core.ErrAdapterClosed` as the claim
requires (no code path of the repository ever returns
`ErrAdapterClosed`). -/
theorem close_then_release_error_is_not_adapterClosed :
    (GoRelease (GoClose ⟨false, [⟨"k", "L", 100, "N", "{}", 0, 0⟩]⟩).1
        ⟨"k", "L", 100, "N"⟩).2 = some (.pg .closedPool) ∧
    some (GoError.pg .closedPool) ≠ some GoError.adapterClosed := by
  exact ⟨rfl, by decide⟩

/-- C8 amended: `Close` is idempotent, returns no error and marks the
pooled resource closed; every operation invoked afterwards (`Acquire`,
`Release`, `Refresh`, `IsHeld`) fails — surfacing the pool's closed-pool
error (wrapped as the failed-to-acquire error in `Acquire`) rather than
`core.ErrAdapterClosed`, and nothing reconnects. -/
theorem close_idempotent_and_pool_errors (db : DB) (now : Int) (token : LockToken)
    (newTTL : Int) :
    (GoClose db).2 = none ∧
    GoClose (GoClose db).1 = GoClose db ∧
    (GoClose db).1.closed = true ∧
    ((GoRelease (GoClose db).1 token).2 = some (.pg .closedPool) ∧
      (GoRelease (GoClose db).1 token).2 ≠ some .adapterClosed) ∧
    ((GoRefresh (GoClose db).1 token newTTL).2 = .error (.pg .closedPool) ∧
      (GoRefresh (GoClose db).1 token newTTL).2 ≠ .error .adapterClosed) ∧
    ((GoIsHeld (GoClose db).1 now token).2.2 = some (.pg .closedPool) ∧
      (GoIsHeld (GoClose db).1 now token).2.2 ≠ some .adapterClosed) ∧
    (∀ (key : String) (opts : LockOptions) (leaseID nonce : String) (o2 : LockOptions)
        (ttl_ms : Int) (md : String),
      ValidateKey key = none → opts.Validate = (o2, none) →
      0 ≤ o2.RetryStrategy.MaxRetries →
      GoAcquire key opts leaseID nonce
          (fun _ => poolAttempt (GoClose db).1 now key leaseID ttl_ms nonce md) =
        (.failure (.failedToAcquire .closedPool), []) ∧
      (GoError.failedToAcquire .closedPool) ≠ .adapterClosed) := by
  have hrel : (GoRelease (GoClose db).1 token).2 = some (.pg .closedPool) := rfl
  have href : (GoRefresh (GoClose db).1 token newTTL).2 =
      .error (.pg .closedPool) := rfl
  have hheld : (GoIsHeld (GoClose db).1 now token).2.2 = some (.pg .closedPool) := rfl
  refine ⟨rfl, rfl, rfl, ⟨hrel, by rw [hrel]; decide⟩, ⟨href, by rw [href]; simp⟩,
    ⟨hheld, by rw [hheld]; decide⟩, ?_⟩
  intro key opts leaseID nonce o2 ttl_ms md hkey hval hmr
  refine ⟨?_, by decide⟩
  have hred : GoAcquire key opts leaseID nonce
      (fun _ => poolAttempt (GoClose db).1 now key leaseID ttl_ms nonce md) =
      acquireLoop o2.RetryStrategy
        (fun _ => poolAttempt (GoClose db).1 now key leaseID ttl_ms nonce md)
        key leaseID nonce 0 (o2.RetryStrategy.MaxRetries + 1).toNat := by
    unfold GoAcquire
    rw [hkey, hval]
  have hpa : (fun _ : Nat => poolAttempt (GoClose db).1 now key leaseID ttl_ms nonce md) =
      (fun _ : Nat => AttemptOutcome.err .closedPool) := by
    funext i
    rfl
  obtain ⟨m, hm⟩ : ∃ m, (o2.RetryStrategy.MaxRetries + 1).toNat = m + 1 :=
    ⟨(o2.RetryStrategy.MaxRetries + 1).toNat - 1, by omega⟩
  rw [hred, hpa, hm]
  rfl

theorem close_idempotent_and_pool_errors_witness :
    GoAcquire "k" ⟨MinLockTTL, ⟨0, 100, 1000, 0, 1⟩, "{}", 1000⟩ "L" "N"
        (fun _ => poolAttempt (GoClose ⟨false, []⟩).1 0 "k" "L" 1 "N" "{}") =
      (.failure (.failedToAcquire .closedPool), []) ∧
    GoClose (GoClose ⟨false, []⟩).1 = GoClose ⟨false, []⟩ :=
  ⟨((close_idempotent_and_pool_errors ⟨false, []⟩ 0 ⟨"k", "L", 5, "N"⟩ 1000).2.2.2.2.2.2
      "k" ⟨MinLockTTL, ⟨0, 100, 1000, 0, 1⟩, "{}", 1000⟩ "L" "N"
      ⟨MinLockTTL, ⟨0, 100, 1000, 0, 1⟩, "{}", 1000⟩ 1 "{}" rfl rfl (by decide)).1,
   (close_idempotent_and_pool_errors ⟨false, []⟩ 0 ⟨"k", "L", 5, "N"⟩ 1000).2.1⟩

/-! ## C2 and C3: Refresh -/

/-- C2, evaluated at the failing input: a held lock `("k", "L", nonce
"N", valid_until 1010)` whose own token is refreshed with `newTTL =
10ms`.  The malformed statement is rejected at parse time, so `Refresh`
returns the raw backend syntax error with the table untouched: no
refresh ever succeeds, the stored lease keeps nonce `"N"` forever, and no
token carrying a rotated nonce or a new `validUntil` is ever produced —
while the claim (and `contract.go`'s documented `Updates ServerNonce`)
requires a successful refresh to rotate the nonce into the returned
token. -/
theorem refresh_always_errors_never_rotates :
    GoRefresh ⟨false, [⟨"k", "L", 1010, "N", "{}", 0, 0⟩]⟩ ⟨"k", "L", 1010, "N"⟩ 10 =
      (⟨false, [⟨"k", "L", 1010, "N", "{}", 0, 0⟩]⟩,
       .error (.pg refreshSqlSyntaxError)) ∧
    ((lookupLease [⟨"k", "L", 1010, "N", "{}", 0, 0⟩] "k").map
        (fun r => r.server_nonce)) = some "N" := by
  exact ⟨rfl, rfl⟩

/-- C3, evaluated at the failing input: a lease expired far beyond the
15% safety margin (`valid_until = 849`, refreshed with a 1000ms TTL, so
the margin window ends at `now − 150`).  The claim requires rejection
with the distinct refresh-too-late error; the code instead returns the
backend's parse error for the malformed `refreshLockSQL` — the margin
predicate in its `WHERE` clause is never evaluated and
`core.ErrRefreshTooLate` is unreachable — though indeed no lease is ever
extended. -/
theorem refresh_rejects_with_syntax_error_not_refreshTooLate :
    (GoRefresh ⟨false, [⟨"k", "L", 849, "N", "{}", 0, 0⟩]⟩ ⟨"k", "L", 849, "N"⟩ 1000).2 =
      .error (.pg refreshSqlSyntaxError) ∧
    (GoRefresh ⟨false, [⟨"k", "L", 849, "N", "{}", 0, 0⟩]⟩ ⟨"k", "L", 849, "N"⟩ 1000).1 =
      ⟨false, [⟨"k", "L", 849, "N", "{}", 0, 0⟩]⟩ ∧
    ((GoError.pg refreshSqlSyntaxError) == GoError.refreshTooLate) = false := by
  exact ⟨rfl, rfl, by decide⟩

end Lockbox
